import Mathlib

/-!
# Verification of the gralph task-orchestration engine

Shallow embedding of `src/gralph/scheduler.py` and the pure decision logic of
`src/gralph/runner.py`, together with proofs settling the frozen claims about
the dependency/mutex scheduler and the failure handling, provider
rotation and outcome classification of the runner.

Python dicts whose iteration order is observable (the `_state` dict of the
scheduler) are modelled as insertion-ordered association lists with Python
assignment semantics (`dictSet`); dicts observed only through lookup (the
mutex lock table, the per-task runner maps) are modelled as functions into
`Option`.
Monotonic clock values are modelled as integers (whole seconds); machine
floats play no role in any claim.
-/

namespace Gralph

/-- Lookup in an insertion-ordered association list (first binding wins;
Python dicts keep keys unique so at most one binding exists per key). -/
def dictGet {α : Type} : List (String × α) → String → Option α
  | [], _ => none
  | (k, v) :: rest, k' => if k' = k then some v else dictGet rest k'

/-- Python `d[k] = v`: replace the value at an existing key in place,
otherwise append the new binding at the end (insertion order). -/
def dictSet {α : Type} : List (String × α) → String → α → List (String × α)
  | [], k, v => [(k, v)]
  | (k', v') :: rest, k, v =>
      if k' = k then (k, v) :: rest else (k', v') :: dictSet rest k v

/-- Pointwise update of a function-modelled dict. -/
def fupd {α : Type} (f : String → α) (k : String) (v : α) : String → α :=
  fun x => if x = k then v else f x

/-- `charsStartWith needle hay`: the char list `hay` starts with `needle`. -/
def charsStartWith : List Char → List Char → Bool
  | [], _ => true
  | _ :: _, [] => false
  | c :: cs, d :: ds => c = d && charsStartWith cs ds

/-- `charsContain needle hay`: `needle` occurs contiguously inside `hay`. -/
def charsContain (needle : List Char) : List Char → Bool
  | [] => charsStartWith needle []
  | d :: ds => charsStartWith needle (d :: ds) || charsContain needle ds

/-- Python `needle in hay` on strings (substring containment). -/
def substrOf (needle hay : String) : Bool :=
  charsContain needle.data hay.data

/-- Python `str.lower()` restricted to ASCII, which is all the source compares. -/
def strLower (s : String) : String :=
  String.mk (s.data.map Char.toLower)

/-! ## Scheduler data model (`src/gralph/tasks/model.py`, `src/gralph/scheduler.py`) -/

/-- `Task` from `gralph/tasks/model.py` (fields not consulted by the
scheduler or the claims — `title`, `touches`, `merge_notes` — are omitted). -/
structure Task where
  id : String
  completed : Bool := false
  depends_on : List String := []
  mutex : List String := []
deriving DecidableEq, Repr

/-- `TaskState` from `gralph/scheduler.py`. -/
inductive TaskState
  | pending
  | running
  | done
  | failed
deriving DecidableEq, Repr

/-- The mutable state of `Scheduler`: the task file, the insertion-ordered
`_state` dict, and the `_locked` mutex table (`mutex name -> holder`,
observed only through lookup, hence modelled as a function). -/
structure Scheduler where
  tasks : List Task
  state : List (String × TaskState)
  locked : String → Option String

namespace Scheduler

/-- The per-task lookup dicts built in `Scheduler.__init__`
(`self._deps[task.id] = task.depends_on`, and likewise `_mutex`). -/
def taskDict {α : Type} (ts : List Task) (f : Task → α) : List (String × α) :=
  ts.foldl (fun d t => dictSet d t.id (f t)) []

/-- `Scheduler.__init__`: completed tasks start DONE, the rest PENDING;
the lock table starts empty. -/
def init (ts : List Task) : Scheduler where
  tasks := ts
  state := ts.foldl
    (fun d t => dictSet d t.id (if t.completed then TaskState.done else TaskState.pending)) []
  locked := fun _ => none

/-- `self._deps.get(task_id, [])`. -/
def depsOf (s : Scheduler) (tid : String) : List String :=
  (dictGet (taskDict s.tasks Task.depends_on) tid).getD []

/-- `self._mutex.get(task_id, [])`. -/
def mutexOf (s : Scheduler) (tid : String) : List String :=
  (dictGet (taskDict s.tasks Task.mutex) tid).getD []

/-- `Scheduler.state`: `self._state.get(task_id, TaskState.PENDING)`. -/
def stateOf (s : Scheduler) (tid : String) : TaskState :=
  (dictGet s.state tid).getD TaskState.pending

/-- `Scheduler.count_pending`. -/
def countPending (s : Scheduler) : Nat :=
  (s.state.filter (fun p => p.2 = TaskState.pending)).length

/-- `Scheduler.count_running`. -/
def countRunning (s : Scheduler) : Nat :=
  (s.state.filter (fun p => p.2 = TaskState.running)).length

/-- `Scheduler.count_failed`. -/
def countFailed (s : Scheduler) : Nat :=
  (s.state.filter (fun p => p.2 = TaskState.failed)).length

/-- `Scheduler.deps_satisfied`: every non-empty dependency is DONE
(`self._state.get(dep)` returns `None` for unknown ids, which compares
unequal to DONE, exactly like the default-PENDING lookup here). -/
def depsSatisfied (s : Scheduler) (tid : String) : Bool :=
  (s.depsOf tid).all (fun dep => decide (dep = "") || decide (s.stateOf dep = TaskState.done))

/-- `Scheduler.mutex_available`: every non-empty declared mutex is unlocked. -/
def mutexAvailable (s : Scheduler) (tid : String) : Bool :=
  (s.mutexOf tid).all (fun mx => decide (mx = "") || (s.locked mx).isNone)

/-- `Scheduler._lock_mutex`: `for mx in mutexes: if mx: locked[mx] = task_id`. -/
def lockMutex (s : Scheduler) (tid : String) : Scheduler :=
  { s with locked := fun m => if m ∈ s.mutexOf tid ∧ m ≠ "" then some tid else s.locked m }

/-- `Scheduler._unlock_mutex`: `for mx in mutexes: locked.pop(mx, None)`
(note: no emptiness guard, and no holder check). -/
def unlockMutex (s : Scheduler) (tid : String) : Scheduler :=
  { s with locked := fun m => if m ∈ s.mutexOf tid then none else s.locked m }

/-- `Scheduler.get_ready`: iterate `self._state.items()` in insertion
order, keeping PENDING tasks with deps satisfied and mutexes free. -/
def getReady (s : Scheduler) : List String :=
  (s.state.filter
    (fun p => decide (p.2 = TaskState.pending) && s.depsSatisfied p.1 && s.mutexAvailable p.1)).map
    Prod.fst

/-- `Scheduler.start_task`: set RUNNING, then lock declared mutexes. -/
def startTask (s : Scheduler) (tid : String) : Scheduler :=
  lockMutex { s with state := dictSet s.state tid TaskState.running } tid

/-- `Scheduler.complete_task`: set DONE, then unlock declared mutexes. -/
def completeTask (s : Scheduler) (tid : String) : Scheduler :=
  unlockMutex { s with state := dictSet s.state tid TaskState.done } tid

/-- `Scheduler.fail_task`: set FAILED, then unlock declared mutexes. -/
def failTask (s : Scheduler) (tid : String) : Scheduler :=
  unlockMutex { s with state := dictSet s.state tid TaskState.failed } tid

/-- `Scheduler.retry_task`: set PENDING, then unlock declared mutexes. -/
def retryTask (s : Scheduler) (tid : String) : Scheduler :=
  unlockMutex { s with state := dictSet s.state tid TaskState.pending } tid

/-- `Scheduler.check_deadlock`: pending>0 and running==0 and no ready task. -/
def checkDeadlock (s : Scheduler) : Bool :=
  decide (0 < s.countPending) && decide (s.countRunning = 0) && s.getReady.isEmpty

/-- `Scheduler.has_failed_deps`: some direct dependency is FAILED
(`self._state.get(dep) == TaskState.FAILED`; no empty-string skip here). -/
def hasFailedDeps (s : Scheduler) (tid : String) : Bool :=
  (s.depsOf tid).any (fun dep => decide (dictGet s.state dep = some TaskState.failed))

end Scheduler

/-! ## Runner failure classification and decision logic (`src/gralph/runner.py`) -/

/-- The conflict markers of `_is_merge_conflict_failure`. -/
def mergeConflictMarkers : List String :=
  ["automatic merge failed", "conflict (content)", "conflict in ", "merge conflict"]

/-- `_is_merge_conflict_failure(msg)`. -/
def isMergeConflictFailure (msg : String) : Bool :=
  if msg = "" then false
  else mergeConflictMarkers.any (fun marker => substrOf marker (strLower msg))

/-- The pattern list of `_is_external_failure`. -/
def externalFailurePatterns : List String :=
  ["buninstallfailederror", "command not found", "enoent", "eacces",
   "commandnotfoundexception", "objectnotfound:",
   "permission denied", "network", "timeout", "tls", "econnreset",
   "etimedout", "lockfile", "install", "certificate", "ssl",
   "rate limit", "quota", "429", "too many requests", "hit your limit", "stalled",
   "blocked by policy", "read-only sandbox", "approval_policy"]

/-- `_is_external_failure(msg)`: merge conflicts, or any infra/toolchain
pattern occurring in the lowercased message. -/
def isExternalFailure (msg : String) : Bool :=
  if msg = "" then false
  else if isMergeConflictFailure msg then true
  else externalFailurePatterns.any (fun p => substrOf p (strLower msg))

/-- `_meaningful_changes`, applied to the already-computed changed-file
list: some entry is non-empty and contains neither reserved filename as a
substring of the whole path (`"tasks.yaml" not in f`). -/
def meaningfulChanges (files : List String) : Bool :=
  files.any (fun f =>
    decide (f ≠ "") && !substrOf "tasks.yaml" f && !substrOf "progress.txt" f)

/-- Last path component, used only to formalise the claim wording about
exact-basename exclusion (see `claimMeaningfulByBasename`). -/
def pathBasename (f : String) : String :=
  String.mk (f.data.foldl (fun acc c => if c = '/' then [] else acc ++ [c]) [])

/-- Formalisation of the CLAIM wording, not of the source: a meaningful
change is an entry whose exact basename is neither `tasks.yaml` nor
`progress.txt`. The source (`_meaningful_changes`) instead excludes by
substring match over the whole path; the two disagree, e.g. on
`mytasks.yaml`. -/
def claimMeaningfulByBasename (files : List String) : Bool :=
  files.any (fun f =>
    decide (pathBasename f ≠ "tasks.yaml") && decide (pathBasename f ≠ "progress.txt"))

/-- Outcome routing of a finished slot. -/
inductive Route
  | success
  | failure (errMsg : String)
deriving DecidableEq, Repr

/-- The classification step of `Runner._handle_finished`, as a function of
the observations it makes: the exit code, `commit_count` against base, the
changed-file list, and the error message extracted from the logs (empty
when none was found). Success requires exit code 0, at least one new
commit, and meaningful changes; otherwise a failure message is synthesized
when the logs offered none. -/
def handleFinishedRoute (rc : Int) (commits : Nat) (files : List String)
    (logErr : String) : Route :=
  if rc = 0 ∧ 0 < commits ∧ meaningfulChanges files = true then Route.success
  else
    Route.failure
      (if logErr ≠ "" then logErr
       else if rc ≠ 0 then "exit code " ++ toString rc
       else if commits = 0 then "Agent exited without creating any commits"
       else if meaningfulChanges files = false then
         "No meaningful changes (only tasks.yaml/progress.txt)"
       else logErr)

/-- The configuration fields of `gralph/config.py` consulted by the
retry/failure logic, with their source defaults. -/
structure Config where
  maxRetries : Int := 3
  retryDelay : Int := 5
  externalFailTimeout : Int := 300
deriving Repr

/-- `Runner._should_retry`: a positive cap, retries left, no policy/sandbox
block, and an externally classified message. -/
def shouldRetry (cfg : Config) (errMsg : String) (retriesUsed : Nat) : Bool :=
  if cfg.maxRetries ≤ 0 then false
  else if cfg.maxRetries ≤ (retriesUsed : Int) then false
  else if substrOf "blocked by policy" (strLower errMsg)
          || substrOf "read-only sandbox" (strLower errMsg) then false
  else isExternalFailure errMsg

/-- The Runner state touched by provider assignment and failure handling:
`task_providers`, the round-robin cursor, retry bookkeeping, the
first-external-failure clock, and the scheduler. Monotonic timestamps are
integers. -/
structure RunnerState where
  cfg : Config
  providers : List String
  taskProviders : String → Option String
  providerIndex : Nat
  retryCounts : String → Nat
  retryAfter : String → Option Int
  externalFailureSince : String → Option Int
  sched : Scheduler

/-- `Runner._provider_for_task`: return the sticky assignment when present
(and truthy), otherwise take the provider at the round-robin cursor and
advance the cursor. `providers` is non-empty by `_normalize_providers`, so
the modular index is always in range. -/
def providerForTask (st : RunnerState) (tid : String) : String × RunnerState :=
  let assigned := (st.taskProviders tid).getD ""
  if assigned ≠ "" then (assigned, st)
  else
    let provider := st.providers.getD (st.providerIndex % st.providers.length) ""
    (provider,
      { st with
        providerIndex := st.providerIndex + 1
        taskProviders := fupd st.taskProviders tid (some provider) })

/-- Python `list.index` wrapped in try/except ValueError: the index of the
first occurrence, or -1 when absent (`_rotate_provider_for_task`). -/
def listIndex : List String → String → Int
  | [], _ => -1
  | x :: rest, y =>
      if x = y then 0
      else
        let r := listIndex rest y
        if r < 0 then -1 else r + 1

/-- The offset loop of `_rotate_provider_for_task`:
`for offset in range(1, len(providers) + 1)`, probing
`providers[(start_idx + offset) % len(providers)]` for the first candidate
distinct from the current provider. -/
def rotateSearch (providers : List String) (current : String) (startIdx : Int) :
    Nat → Nat → Option String
  | _, 0 => none
  | offset, fuel + 1 =>
      let idx := ((startIdx + (offset : Int)) % (providers.length : Int)).toNat
      let candidate := providers.getD idx ""
      if candidate ≠ current then some candidate
      else rotateSearch providers current startIdx (offset + 1) fuel

/-- `Runner._rotate_provider_for_task`: switch the task to the next distinct
provider in configured order, searching forward from the current provider
with wrap-around; returns the (old, new) pair when a switch happened. -/
def rotateProviderForTask (st : RunnerState) (tid : String) :
    Option (String × String) × RunnerState :=
  if st.providers.length ≤ 1 then (none, st)
  else
    let cur := (st.taskProviders tid).getD ""
    let pick := if cur ≠ "" then (cur, st) else providerForTask st tid
    let current := pick.1
    let st1 := pick.2
    let startIdx := listIndex st1.providers current
    match rotateSearch st1.providers current startIdx 1 st1.providers.length with
    | some candidate =>
        (some (current, candidate),
          { st1 with taskProviders := fupd st1.taskProviders tid (some candidate) })
    | none => (none, st1)

/-- Result of `Runner._handle_failure`: the report status written
(`"retrying"` or `"failed"`), the final error message, and the new state. -/
structure FailureOutcome where
  status : String
  errMsg : String
  st : RunnerState

/-- `Runner._handle_failure` (retry decision, external time budget,
provider rotation, scheduler transition and report status; log printing and
worktree cleanup have no bearing on any claim). `now` is the value of
`time.monotonic()` during this call. -/
def handleFailure (st0 : RunnerState) (tid : String) (errMsg0 : String)
    (now : Int) (allowProviderSwitch : Bool) : FailureOutcome :=
  let retriesUsed := st0.retryCounts tid
  let isExt := isExternalFailure errMsg0
  let sr0 := shouldRetry st0.cfg errMsg0 retriesUsed
  let step1 : Bool × String × RunnerState :=
    if sr0 && isExt && decide (0 < st0.cfg.externalFailTimeout) then
      let firstSeen := (st0.externalFailureSince tid).getD now
      let st1 := { st0 with
        externalFailureSince := fupd st0.externalFailureSince tid (some firstSeen) }
      let elapsed := now - firstSeen
      if st0.cfg.externalFailTimeout ≤ elapsed then
        (false, errMsg0 ++ " (external failure timeout after " ++ toString elapsed ++ "s)", st1)
      else (true, errMsg0, st1)
    else if !sr0 || !isExt then
      (sr0, errMsg0,
        { st0 with externalFailureSince := fupd st0.externalFailureSince tid none })
    else (sr0, errMsg0, st0)
  let retrying := step1.1
  let errMsg := step1.2.1
  let st1 := step1.2.2
  if retrying then
    let rot := if allowProviderSwitch && isExt then rotateProviderForTask st1 tid
               else (none, st1)
    let st2 := rot.2
    let delay := max st2.cfg.retryDelay 0
    let st3 : RunnerState :=
      { st2 with
        retryCounts := fupd st2.retryCounts tid (retriesUsed + 1)
        retryAfter := if delay ≠ 0 then fupd st2.retryAfter tid (some (now + delay))
                      else st2.retryAfter
        sched := st2.sched.retryTask tid }
    { status := "retrying", errMsg := errMsg, st := st3 }
  else
    let st2 : RunnerState :=
      { st1 with
        sched := st1.sched.failTask tid
        externalFailureSince := fupd st1.externalFailureSince tid none }
    { status := "failed", errMsg := errMsg, st := st2 }

/-- The merge-failure tail of `Runner._handle_success`: on `merge_ok`
false the slot is routed to `_handle_failure` with the merge error
(defaulted to `git merge failed`) and `allow_provider_switch=False`. -/
def handleSuccessMergeFailed (st : RunnerState) (tid mergeError : String)
    (now : Int) : FailureOutcome :=
  handleFailure st tid (if mergeError = "" then "git merge failed" else mergeError) now false

/-- The method names defined by `class Scheduler` in
`src/gralph/scheduler.py`, for modelling Python attribute lookup on the
scheduler object. -/
def schedulerMethodNames : List String :=
  ["__init__", "state", "count_pending", "count_running", "count_done",
   "count_failed", "deps_satisfied", "mutex_available", "_lock_mutex",
   "_unlock_mutex", "get_ready", "start_task", "complete_task", "fail_task",
   "retry_task", "check_deadlock", "explain_block", "has_failed_deps"]

/-- Outcome of a Python call that may fail attribute resolution. -/
inductive PyOutcome
  | returned
  | attributeError (detail : String)
deriving DecidableEq, Repr

/-- `Runner._report_deadlock`: its first executed statement iterates
`self.sched.pending_task_ids()`. Python resolves that attribute
dynamically, and `scheduler.py` defines no such method, so the call raises
`AttributeError` before anything is reported; the `returned` branch is
unreachable. -/
def reportDeadlock (_s : Scheduler) : PyOutcome :=
  if "pending_task_ids" ∈ schedulerMethodNames then
    PyOutcome.returned
  else
    PyOutcome.attributeError "Scheduler object has no attribute pending_task_ids"

/-- The deadlock arm of `Runner._main_loop`: when `check_deadlock()` holds,
the loop calls `_report_deadlock()` and would then return failure; the
outcome of the call is surfaced. -/
def mainLoopDeadlockArm (s : Scheduler) : Option PyOutcome :=
  if s.checkDeadlock then some (reportDeadlock s) else none

/-! ## Execution model and invariants -/

/-- One scheduler operation, as specified and as the runner performs it:
`start_task` only on a task returned by `get_ready()` (the launch path),
and `complete_task`/`fail_task`/`retry_task` on the Running task of a
reaped slot (the spec gives these the domains Running to Done / Failed /
Pending). -/
inductive Step : Scheduler → Scheduler → Prop
  | start (s : Scheduler) (tid : String) :
      tid ∈ s.getReady → Step s (s.startTask tid)
  | complete (s : Scheduler) (tid : String) :
      s.stateOf tid = TaskState.running → Step s (s.completeTask tid)
  | fail (s : Scheduler) (tid : String) :
      s.stateOf tid = TaskState.running → Step s (s.failTask tid)
  | retry (s : Scheduler) (tid : String) :
      s.stateOf tid = TaskState.running → Step s (s.retryTask tid)

/-- Scheduler states reachable from a given state by the four operations. -/
inductive Reachable (s0 : Scheduler) : Scheduler → Prop
  | refl : Reachable s0 s0
  | step {s t : Scheduler} : Reachable s0 s → Step s t → Reachable s0 t

/-- Well-formed scheduler states: the `_state` keys are exactly the
task-file ids in input order, and ids are unique (the validated task-file
invariant). This holds at construction and is maintained by the
operations, which only rewrite existing keys. -/
def Wf (s : Scheduler) : Prop :=
  s.state.map Prod.fst = s.tasks.map Task.id ∧ (s.tasks.map Task.id).Nodup

/-- The inductive mutex invariant: `_state` keys stay unique, every
Running task holds each of its non-empty declared mutexes, and every lock
entry points back at a Running task declaring that non-empty mutex. -/
def MutexInv (s : Scheduler) : Prop :=
  (s.state.map Prod.fst).Nodup ∧
  (∀ tid m, s.stateOf tid = TaskState.running → m ∈ s.mutexOf tid → m ≠ "" →
    s.locked m = some tid) ∧
  (∀ m tid, s.locked m = some tid →
    s.stateOf tid = TaskState.running ∧ m ∈ s.mutexOf tid ∧ m ≠ "")

/-! ## Concrete scenarios used as witnesses and failing inputs -/

/-- Two tasks A and B with B depending on A (the scenario of the spec:
start A, fail A). -/
def depDemoInit : Scheduler :=
  Scheduler.init [{ id := "A" }, { id := "B", depends_on := ["A"] }]

/-- After `start_task("A")` then `fail_task("A")`: a deadlocked state. -/
def deadlockDemo : Scheduler :=
  (depDemoInit.startTask "A").failTask "A"

/-- Tasks A and B sharing mutex `m`. -/
def mutexDemoInit : Scheduler :=
  Scheduler.init [{ id := "A", mutex := ["m"] }, { id := "B", mutex := ["m"] }]

/-- Run A to completion, then start B, which now holds `m`; A is Done. -/
def doubleReleaseDemo : Scheduler :=
  ((mutexDemoInit.startTask "A").completeTask "A").startTask "B"

/-- A one-step reachable state over a single mutex-holding task. -/
def reachDemo : Scheduler :=
  (Scheduler.init [{ id := "A", mutex := ["m"] }]).startTask "A"

/-- A runner state with one Running task T, default configuration, three
providers with T assigned the first, and no retries used. -/
def runnerDemo : RunnerState where
  cfg := {}
  providers := ["p1", "p2", "p3"]
  taskProviders := fun tid => if tid = "T" then some "p1" else none
  providerIndex := 0
  retryCounts := fun _ => 0
  retryAfter := fun _ => none
  externalFailureSince := fun _ => none
  sched := (Scheduler.init [{ id := "T" }]).startTask "T"

/-- `runnerDemo` after its first external failure was recorded at time 0. -/
def runnerDemoTimed : RunnerState :=
  { runnerDemo with externalFailureSince := fun tid => if tid = "T" then some 0 else none }

/-! ## Dictionary lemmas -/

theorem dictGet_dictSet {α : Type} (l : List (String × α)) (k : String) (v : α)
    (k' : String) :
    dictGet (dictSet l k v) k' = if k' = k then some v else dictGet l k' := by
  induction l with
  | nil => simp [dictSet, dictGet]
  | cons p rest ih =>
    obtain ⟨a, b⟩ := p
    by_cases hak : a = k
    · subst hak
      by_cases hk : k' = a <;> simp [dictSet, dictGet, hk]
    · by_cases hk'a : k' = a
      · subst hk'a
        have hk'k : k' ≠ k := hak
        simp [dictSet, dictGet, hak, hk'k]
      · have hka : k ≠ a := fun h => hak h.symm
        by_cases hk'k : k' = k
        · subst hk'k
          simp [dictSet, dictGet, hak, hka, hk'a, ih]
        · simp [dictSet, dictGet, hak, hka, hk'a, hk'k, ih]

theorem keys_dictSet {α : Type} (l : List (String × α)) (k : String) (v : α) :
    (dictSet l k v).map Prod.fst =
      if k ∈ l.map Prod.fst then l.map Prod.fst else l.map Prod.fst ++ [k] := by
  induction l with
  | nil => simp [dictSet]
  | cons p rest ih =>
    obtain ⟨a, b⟩ := p
    by_cases hak : a = k
    · subst hak
      simp [dictSet]
    · have hka : k ≠ a := fun h => hak h.symm
      by_cases hk : k ∈ rest.map Prod.fst <;>
        simp [dictSet, hak, hka, ih, hk, List.mem_cons]

theorem mem_keys_of_dictGet {α : Type} {l : List (String × α)} {k : String} {v : α}
    (h : dictGet l k = some v) : k ∈ l.map Prod.fst := by
  induction l with
  | nil => simp [dictGet] at h
  | cons p rest ih =>
    obtain ⟨a, b⟩ := p
    by_cases hka : k = a
    · simp [hka]
    · simp only [dictGet, if_neg hka] at h
      exact List.mem_cons.mpr (Or.inr (ih h))

theorem dictGet_eq_of_mem {α : Type} {l : List (String × α)} {k : String} {v : α}
    (hnd : (l.map Prod.fst).Nodup) (hmem : (k, v) ∈ l) : dictGet l k = some v := by
  induction l with
  | nil => simp at hmem
  | cons p rest ih =>
    obtain ⟨a, b⟩ := p
    simp only [List.map_cons, List.nodup_cons] at hnd
    rcases List.mem_cons.mp hmem with heq | htail
    · cases heq
      simp [dictGet]
    · have hka : k ≠ a := by
        intro h
        subst h
        exact hnd.1 (List.mem_map.mpr ⟨(k, v), htail, rfl⟩)
      simp [dictGet, hka, ih hnd.2 htail]

theorem map_fst_filter_eq_filter_keys {α : Type} (d : α) (q : String → α → Bool)
    (l : List (String × α)) (hnd : (l.map Prod.fst).Nodup) :
    (l.filter (fun p => q p.1 p.2)).map Prod.fst =
      (l.map Prod.fst).filter (fun k => q k ((dictGet l k).getD d)) := by
  induction l with
  | nil => simp
  | cons p rest ih =>
    obtain ⟨a, b⟩ := p
    simp only [List.map_cons, List.nodup_cons] at hnd
    have hcongr : (rest.map Prod.fst).filter
          (fun k => q k ((dictGet ((a, b) :: rest) k).getD d)) =
        (rest.map Prod.fst).filter (fun k => q k ((dictGet rest k).getD d)) := by
      apply List.filter_congr
      intro k hk
      have hka : k ≠ a := by
        intro h
        subst h
        exact hnd.1 hk
      simp [dictGet, hka]
    have hQa : (dictGet ((a, b) :: rest) a).getD d = b := by simp [dictGet]
    by_cases hq : q a b = true <;>
      simp [List.filter_cons, hQa, hq, hcongr, ih hnd.2]

/-! ## Scheduler operation lemmas -/

namespace Scheduler

theorem startTask_state (s : Scheduler) (tid : String) :
    (s.startTask tid).state = dictSet s.state tid TaskState.running := rfl

theorem completeTask_state (s : Scheduler) (tid : String) :
    (s.completeTask tid).state = dictSet s.state tid TaskState.done := rfl

theorem failTask_state (s : Scheduler) (tid : String) :
    (s.failTask tid).state = dictSet s.state tid TaskState.failed := rfl

theorem retryTask_state (s : Scheduler) (tid : String) :
    (s.retryTask tid).state = dictSet s.state tid TaskState.pending := rfl

theorem startTask_mutexOf (s : Scheduler) (tid u : String) :
    (s.startTask tid).mutexOf u = s.mutexOf u := rfl

theorem startTask_locked (s : Scheduler) (tid m : String) :
    (s.startTask tid).locked m =
      if m ∈ s.mutexOf tid ∧ m ≠ "" then some tid else s.locked m := rfl

theorem stateOf_of_state_eq {s t : Scheduler} (tid x : String) (v : TaskState)
    (h : t.state = dictSet s.state tid v) :
    t.stateOf x = if x = tid then v else s.stateOf x := by
  simp only [Scheduler.stateOf, h, dictGet_dictSet]
  by_cases hx : x = tid <;> simp [hx]

theorem stateOf_startTask (s : Scheduler) (tid x : String) :
    (s.startTask tid).stateOf x = if x = tid then TaskState.running else s.stateOf x :=
  stateOf_of_state_eq tid x TaskState.running (startTask_state s tid)

theorem mem_keys_of_stateOf_running {s : Scheduler} {tid : String}
    (h : s.stateOf tid = TaskState.running) : tid ∈ s.state.map Prod.fst := by
  unfold Scheduler.stateOf at h
  cases hd : dictGet s.state tid with
  | none => rw [hd] at h; simp at h
  | some v => exact mem_keys_of_dictGet hd

theorem mem_keys_of_mem_getReady {s : Scheduler} {tid : String} (h : tid ∈ s.getReady) :
    tid ∈ s.state.map Prod.fst := by
  unfold getReady at h
  obtain ⟨p, hp, hfst⟩ := List.mem_map.mp h
  exact hfst ▸ List.mem_map.mpr ⟨p, (List.mem_filter.mp hp).1, rfl⟩

theorem mem_getReady_elim {s : Scheduler} {tid : String}
    (hnd : (s.state.map Prod.fst).Nodup) (h : tid ∈ s.getReady) :
    s.stateOf tid = TaskState.pending ∧ s.depsSatisfied tid = true ∧
      s.mutexAvailable tid = true := by
  unfold getReady at h
  obtain ⟨p, hp, hfst⟩ := List.mem_map.mp h
  obtain ⟨hmem, hcond⟩ := List.mem_filter.mp hp
  obtain ⟨a, b⟩ := p
  simp only at hfst
  subst hfst
  simp only [Bool.and_eq_true, decide_eq_true_eq] at hcond
  obtain ⟨⟨hpend, hdeps⟩, hmx⟩ := hcond
  have hget : dictGet s.state a = some b := dictGet_eq_of_mem hnd hmem
  refine ⟨?_, hdeps, hmx⟩
  simp [Scheduler.stateOf, hget, hpend]

theorem locked_none_of_mutexAvailable {s : Scheduler} {tid m : String}
    (h : s.mutexAvailable tid = true) (hm : m ∈ s.mutexOf tid) (hne : m ≠ "") :
    s.locked m = none := by
  unfold mutexAvailable at h
  rw [List.all_eq_true] at h
  have hm' := h m hm
  simp only [Bool.or_eq_true, decide_eq_true_eq, Option.isNone_iff_eq_none] at hm'
  rcases hm' with h1 | h2
  · exact absurd h1 hne
  · exact h2

end Scheduler

/-! ## The mutex invariant is inductive -/

theorem nodup_keys_taskFold {α : Type} (f : Task → α) (ts : List Task)
    (l : List (String × α)) (hnd : (l.map Prod.fst).Nodup) :
    ((ts.foldl (fun d t => dictSet d t.id (f t)) l).map Prod.fst).Nodup := by
  induction ts generalizing l with
  | nil => exact hnd
  | cons t rest ih =>
    apply ih
    rw [keys_dictSet]
    by_cases h : t.id ∈ l.map Prod.fst
    · simpa [h] using hnd
    · simp [h, List.nodup_append, hnd]

theorem dictGet_taskFold_val {α : Type} (p : α → Prop) (f : Task → α) (ts : List Task)
    (l : List (String × α)) (hl : ∀ k v, dictGet l k = some v → p v)
    (hf : ∀ t, p (f t)) :
    ∀ k v, dictGet (ts.foldl (fun d t => dictSet d t.id (f t)) l) k = some v → p v := by
  induction ts generalizing l with
  | nil => exact hl
  | cons t rest ih =>
    apply ih
    intro k v hkv
    rw [dictGet_dictSet] at hkv
    by_cases h : k = t.id
    · rw [if_pos h] at hkv
      exact (Option.some.inj hkv) ▸ hf t
    · exact hl k v (by simpa [h] using hkv)

theorem init_stateOf_ne_running (ts : List Task) (tid : String) :
    (Scheduler.init ts).stateOf tid ≠ TaskState.running := by
  have hval := dictGet_taskFold_val (fun v => v ≠ TaskState.running)
    (fun t => if t.completed then TaskState.done else TaskState.pending) ts []
    (by intro k v h; simp [dictGet] at h)
    (by intro t; by_cases h : t.completed <;> simp [h])
  intro hrun
  unfold Scheduler.stateOf at hrun
  cases hd : dictGet (Scheduler.init ts).state tid with
  | none => rw [hd] at hrun; simp at hrun
  | some v =>
      rw [hd] at hrun
      exact hval tid v hd (by simpa using hrun)

theorem mutexInv_init (ts : List Task) : MutexInv (Scheduler.init ts) := by
  refine ⟨?_, ?_, ?_⟩
  · exact nodup_keys_taskFold _ ts [] (by simp)
  · intro tid m hrun _ _
    exact absurd hrun (init_stateOf_ne_running ts tid)
  · intro m tid hl
    exact absurd hl (by simp [Scheduler.init])

theorem mutexInv_startTask {s : Scheduler} {tid : String} (hinv : MutexInv s)
    (h : tid ∈ s.getReady) : MutexInv (s.startTask tid) := by
  obtain ⟨hnd, hheld, hholder⟩ := hinv
  obtain ⟨hpend, -, hmx⟩ := Scheduler.mem_getReady_elim hnd h
  have hkeys : tid ∈ s.state.map Prod.fst := Scheduler.mem_keys_of_mem_getReady h
  refine ⟨?_, ?_, ?_⟩
  · rw [Scheduler.startTask_state, keys_dictSet, if_pos hkeys]
    exact hnd
  · intro u m hrun hmu hmne
    rw [Scheduler.startTask_locked]
    rw [Scheduler.stateOf_startTask] at hrun
    rw [Scheduler.startTask_mutexOf] at hmu
    by_cases hu : u = tid
    · subst hu
      rw [if_pos ⟨hmu, hmne⟩]
    · rw [if_neg hu] at hrun
      by_cases hm : m ∈ s.mutexOf tid ∧ m ≠ ""
      · have hnone := Scheduler.locked_none_of_mutexAvailable hmx hm.1 hm.2
        have hsome := hheld u m hrun hmu hmne
        rw [hnone] at hsome
        exact absurd hsome (by simp)
      · rw [if_neg hm]
        exact hheld u m hrun hmu hmne
  · intro m t hl
    rw [Scheduler.startTask_locked] at hl
    rw [Scheduler.startTask_mutexOf, Scheduler.stateOf_startTask]
    by_cases hm : m ∈ s.mutexOf tid ∧ m ≠ ""
    · rw [if_pos hm] at hl
      have ht : t = tid := (Option.some.inj hl).symm
      subst ht
      simp [hm.1, hm.2]
    · rw [if_neg hm] at hl
      obtain ⟨hrun, hmem, hne⟩ := hholder m t hl
      have ht : t ≠ tid := by
        intro h'
        subst h'
        rw [hpend] at hrun
        exact absurd hrun (by simp)
      rw [if_neg ht]
      exact ⟨hrun, hmem, hne⟩

theorem mutexInv_unlock {s : Scheduler} {tid : String} {v : TaskState}
    (hinv : MutexInv s) (hrun : s.stateOf tid = TaskState.running)
    (hv : v ≠ TaskState.running) :
    MutexInv (Scheduler.unlockMutex { s with state := dictSet s.state tid v } tid) := by
  obtain ⟨hnd, hheld, hholder⟩ := hinv
  have hkeys : tid ∈ s.state.map Prod.fst := Scheduler.mem_keys_of_stateOf_running hrun
  have hstate : (Scheduler.unlockMutex { s with state := dictSet s.state tid v } tid).state
      = dictSet s.state tid v := rfl
  have hlocked : ∀ m, (Scheduler.unlockMutex { s with state := dictSet s.state tid v } tid).locked m
      = if m ∈ s.mutexOf tid then none else s.locked m := fun m => rfl
  have hmxOf : ∀ u, (Scheduler.unlockMutex { s with state := dictSet s.state tid v } tid).mutexOf u
      = s.mutexOf u := fun u => rfl
  have hstOf : ∀ x, (Scheduler.unlockMutex { s with state := dictSet s.state tid v } tid).stateOf x
      = if x = tid then v else s.stateOf x := fun x => Scheduler.stateOf_of_state_eq tid x v hstate
  refine ⟨?_, ?_, ?_⟩
  · rw [hstate, keys_dictSet, if_pos hkeys]
    exact hnd
  · intro u m hrun' hmu hmne
    rw [hstOf] at hrun'
    rw [hmxOf] at hmu
    rw [hlocked]
    by_cases hu : u = tid
    · subst hu
      rw [if_pos rfl] at hrun'
      exact absurd hrun' hv
    · rw [if_neg hu] at hrun'
      by_cases hm : m ∈ s.mutexOf tid
      · have h1 := hheld tid m hrun hm hmne
        have h2 := hheld u m hrun' hmu hmne
        rw [h1] at h2
        exact absurd (Option.some.inj h2) (fun h' => hu h'.symm)
      · rw [if_neg hm]
        exact hheld u m hrun' hmu hmne
  · intro m t hl
    rw [hlocked] at hl
    rw [hmxOf, hstOf]
    by_cases hm : m ∈ s.mutexOf tid
    · rw [if_pos hm] at hl
      exact absurd hl (by simp)
    · rw [if_neg hm] at hl
      obtain ⟨hrun', hmem, hne⟩ := hholder m t hl
      have ht : t ≠ tid := by
        intro h'
        subst h'
        exact hm hmem
      rw [if_neg ht]
      exact ⟨hrun', hmem, hne⟩

theorem mutexInv_step {s t : Scheduler} (hinv : MutexInv s) (hst : Step s t) :
    MutexInv t := by
  cases hst with
  | start tid h => exact mutexInv_startTask hinv h
  | complete tid h => exact mutexInv_unlock hinv h (by simp)
  | fail tid h => exact mutexInv_unlock hinv h (by simp)
  | retry tid h => exact mutexInv_unlock hinv h (by simp)

theorem mutexInv_reachable {ts : List Task} {s : Scheduler}
    (h : Reachable (Scheduler.init ts) s) : MutexInv s := by
  induction h with
  | refl => exact mutexInv_init ts
  | step _ hstep ih => exact mutexInv_step ih hstep

theorem stateOf_failTask (s : Scheduler) (tid x : String) :
    (s.failTask tid).stateOf x = if x = tid then TaskState.failed else s.stateOf x :=
  Scheduler.stateOf_of_state_eq tid x TaskState.failed (Scheduler.failTask_state s tid)

theorem stateOf_retryTask (s : Scheduler) (tid x : String) :
    (s.retryTask tid).stateOf x = if x = tid then TaskState.pending else s.stateOf x :=
  Scheduler.stateOf_of_state_eq tid x TaskState.pending (Scheduler.retryTask_state s tid)

/-! ## Claim theorems: scheduler -/

/-- **C1.** In every well-formed scheduler state (`_state` keys are the
task-file ids in input order, ids unique — the validated task-file
invariant maintained by the operations), `get_ready()` returns exactly the
task ids that are Pending, whose every non-empty `dependsOn` entry is
Done, and whose every non-empty `mutex` entry is absent from the lock
table; empty-string entries are ignored, and the result is the filter of
the task-file id order, hence input-order preserving. -/
theorem getReady_exact (s : Scheduler) (hwf : Wf s) :
    s.getReady = (s.tasks.map Task.id).filter
        (fun tid => decide (s.stateOf tid = TaskState.pending) &&
          s.depsSatisfied tid && s.mutexAvailable tid) ∧
    ∀ tid, tid ∈ s.getReady ↔
      (tid ∈ s.tasks.map Task.id ∧ s.stateOf tid = TaskState.pending ∧
       (∀ dep ∈ s.depsOf tid, dep ≠ "" → s.stateOf dep = TaskState.done) ∧
       (∀ mx ∈ s.mutexOf tid, mx ≠ "" → s.locked mx = none)) := by
  obtain ⟨hkeys, hnd⟩ := hwf
  have hnd' : (s.state.map Prod.fst).Nodup := by rw [hkeys]; exact hnd
  have hfilter : s.getReady = (s.state.map Prod.fst).filter
      (fun tid => decide (s.stateOf tid = TaskState.pending) &&
        s.depsSatisfied tid && s.mutexAvailable tid) :=
    map_fst_filter_eq_filter_keys TaskState.pending
      (fun k v => decide (v = TaskState.pending) && s.depsSatisfied k && s.mutexAvailable k)
      s.state hnd'
  constructor
  · rw [hfilter, hkeys]
  · intro tid
    rw [hfilter, hkeys, List.mem_filter]
    constructor
    · rintro ⟨hmem, hcond⟩
      simp only [Bool.and_eq_true, decide_eq_true_eq] at hcond
      obtain ⟨⟨hpend, hdeps⟩, hmx⟩ := hcond
      refine ⟨hmem, hpend, ?_, ?_⟩
      · intro dep hdep hne
        rw [Scheduler.depsSatisfied, List.all_eq_true] at hdeps
        have hd := hdeps dep hdep
        simp only [Bool.or_eq_true, decide_eq_true_eq] at hd
        tauto
      · intro mx hmx' hne
        rw [Scheduler.mutexAvailable, List.all_eq_true] at hmx
        have hm := hmx mx hmx'
        simp only [Bool.or_eq_true, decide_eq_true_eq, Option.isNone_iff_eq_none] at hm
        tauto
    · rintro ⟨hmem, hpend, hdeps, hmx⟩
      refine ⟨hmem, ?_⟩
      simp only [Bool.and_eq_true, decide_eq_true_eq]
      refine ⟨⟨hpend, ?_⟩, ?_⟩
      · rw [Scheduler.depsSatisfied, List.all_eq_true]
        intro dep hdep
        by_cases h : dep = "" <;> simp [h, hdeps dep hdep]
      · rw [Scheduler.mutexAvailable, List.all_eq_true]
        intro mx hmx'
        by_cases h : mx = "" <;> simp [h, hmx mx hmx']

/-- A concrete well-formed state for the C1 witness. -/
def wfDemo : Scheduler :=
  Scheduler.init [{ id := "A" }, { id := "B", depends_on := ["A"], mutex := ["m"] }]

/-- Witness for `getReady_exact` at `wfDemo`. -/
theorem getReady_exact_witness :
    Wf wfDemo ∧
      (wfDemo.getReady = (wfDemo.tasks.map Task.id).filter
          (fun tid => decide (wfDemo.stateOf tid = TaskState.pending) &&
            wfDemo.depsSatisfied tid && wfDemo.mutexAvailable tid) ∧
       ∀ tid, tid ∈ wfDemo.getReady ↔
         (tid ∈ wfDemo.tasks.map Task.id ∧ wfDemo.stateOf tid = TaskState.pending ∧
          (∀ dep ∈ wfDemo.depsOf tid, dep ≠ "" → wfDemo.stateOf dep = TaskState.done) ∧
          (∀ mx ∈ wfDemo.mutexOf tid, mx ≠ "" → wfDemo.locked mx = none))) :=
  ⟨by unfold Wf; decide, getReady_exact wfDemo (by unfold Wf; decide)⟩

/-- **C2.** In every state reachable from an initial scheduler by
`start_task` (on `get_ready()` members only), `complete_task`, `fail_task`
and `retry_task` (on Running tasks, their specified domains), no two
distinct Running tasks share a non-empty mutex name, and the lock table
maps each resource to at most one holder. -/
theorem mutex_mutual_exclusion (ts : List Task) (s : Scheduler)
    (h : Reachable (Scheduler.init ts) s) :
    (∀ t u m, s.stateOf t = TaskState.running → s.stateOf u = TaskState.running →
       t ≠ u → m ∈ s.mutexOf t → m ∈ s.mutexOf u → m ≠ "" → False) ∧
    (∀ m t u, s.locked m = some t → s.locked m = some u → t = u) := by
  obtain ⟨-, hheld, -⟩ := mutexInv_reachable h
  constructor
  · intro t u m hrt hru htu hmt hmu hmne
    have h1 := hheld t m hrt hmt hmne
    have h2 := hheld u m hru hmu hmne
    rw [h1] at h2
    exact htu (Option.some.inj h2)
  · intro m t u h1 h2
    rw [h1] at h2
    exact Option.some.inj h2

/-- Witness for `mutex_mutual_exclusion` at the one-step reachable state
`reachDemo` (the `start_task` premise is discharged by computation). -/
theorem mutex_mutual_exclusion_witness :
    (∀ t u m, reachDemo.stateOf t = TaskState.running →
       reachDemo.stateOf u = TaskState.running → t ≠ u →
       m ∈ reachDemo.mutexOf t → m ∈ reachDemo.mutexOf u → m ≠ "" → False) ∧
    (∀ m t u, reachDemo.locked m = some t → reachDemo.locked m = some u → t = u) :=
  mutex_mutual_exclusion [{ id := "A", mutex := ["m"] }] reachDemo
    (Reachable.step Reachable.refl (Step.start _ "A" (by decide)))

/-- **C10.** `check_deadlock()` is true iff pending > 0, running = 0 and
`get_ready()` is empty; and in the concrete scenario A, B(dependsOn=[A])
with A started then failed, `check_deadlock()` and `has_failed_deps(B)`
both hold. -/
theorem checkDeadlock_spec :
    (∀ s : Scheduler, s.checkDeadlock = true ↔
      (0 < s.countPending ∧ s.countRunning = 0 ∧ s.getReady = [])) ∧
    deadlockDemo.checkDeadlock = true ∧ deadlockDemo.hasFailedDeps "B" = true := by
  refine ⟨?_, by decide, by decide⟩
  intro s
  simp [Scheduler.checkDeadlock, List.isEmpty_iff, and_assoc]

/-- **C4** (code bug). In the deadlocked scenario the main loop observes
`check_deadlock()` true and calls `_report_deadlock()`, whose first
statement calls `self.sched.pending_task_ids()` — a method `Scheduler`
does not define — so the call raises `AttributeError` instead of reporting
and returning failure. -/
theorem deadlock_report_attribute_error :
    deadlockDemo.checkDeadlock = true ∧
    mainLoopDeadlockArm deadlockDemo =
      some (PyOutcome.attributeError
        "Scheduler object has no attribute pending_task_ids") := by decide

/-- **C5** (code bug). With A and B sharing mutex `m`: after A runs and
completes, B starts and the lock table maps `m` to B; calling
`complete_task("A")` again — A already Done — pops that entry even though
B holds it, i.e. the second release is not suppressed. -/
theorem completeTask_done_double_release :
    doubleReleaseDemo.stateOf "A" = TaskState.done ∧
    "m" ∈ doubleReleaseDemo.mutexOf "A" ∧
    doubleReleaseDemo.locked "m" = some "B" ∧
    "B" ∈ ((mutexDemoInit.startTask "A").completeTask "A").getReady ∧
    (doubleReleaseDemo.completeTask "A").locked "m" = none := by decide

/-! ## Claim theorems: runner -/

theorem shouldRetry_eq_false_of_internal (cfg : Config) (msg : String) (r : Nat)
    (h : isExternalFailure msg = false) : shouldRetry cfg msg r = false := by
  unfold shouldRetry
  split_ifs <;> simp [h]

theorem handleFailure_internal_failed (st : RunnerState) (tid msg : String) (now : Int)
    (allow : Bool) (h : isExternalFailure msg = false) :
    (handleFailure st tid msg now allow).status = "failed" ∧
    (handleFailure st tid msg now allow).st.sched.stateOf tid = TaskState.failed := by
  have hsr := shouldRetry_eq_false_of_internal st.cfg msg (st.retryCounts tid) h
  constructor <;> simp [handleFailure, hsr, h, stateOf_failTask]

/-- **C3** (counterexample). An internal failure message with the default
positive retry cap and no retries used — the claim would have the handler
retry it — is instead routed straight to Failed with report status
`failed`. -/
theorem internal_failure_retry_counterexample :
    isExternalFailure "SyntaxError: invalid syntax" = false ∧
    substrOf "blocked by policy" (strLower "SyntaxError: invalid syntax") = false ∧
    substrOf "read-only sandbox" (strLower "SyntaxError: invalid syntax") = false ∧
    runnerDemo.cfg.maxRetries = 3 ∧
    runnerDemo.retryCounts "T" = 0 ∧
    (handleFailure runnerDemo "T" "SyntaxError: invalid syntax" 100 true).status = "failed" ∧
    (handleFailure runnerDemo "T" "SyntaxError: invalid syntax" 100 true).st.sched.stateOf "T"
      = TaskState.failed := by decide

/-- **C3** (amended). For a failed attempt whose error message is
classified internal (not external) — even when it is not a policy/sandbox
block, the retry cap is positive and the used retry count is below the
cap — the failure handler does NOT retry: `_should_retry` requires an
external classification, so the task is marked Failed with report status
`failed`. -/
theorem internal_failure_not_retried (st : RunnerState) (tid msg : String) (now : Int)
    (allow : Bool)
    (hinternal : isExternalFailure msg = false)
    (_hnoblock : substrOf "blocked by policy" (strLower msg) = false ∧
      substrOf "read-only sandbox" (strLower msg) = false)
    (_hcap : 0 < st.cfg.maxRetries)
    (_hleft : (st.retryCounts tid : Int) < st.cfg.maxRetries) :
    (handleFailure st tid msg now allow).status = "failed" ∧
    (handleFailure st tid msg now allow).st.sched.stateOf tid = TaskState.failed :=
  handleFailure_internal_failed st tid msg now allow hinternal

/-- Witness for `internal_failure_not_retried`. -/
theorem internal_failure_not_retried_witness :
    (handleFailure runnerDemo "T" "AssertionError: 3 tests failed" 50 true).status = "failed" ∧
    (handleFailure runnerDemo "T" "AssertionError: 3 tests failed" 50 true).st.sched.stateOf "T"
      = TaskState.failed :=
  internal_failure_not_retried runnerDemo "T" "AssertionError: 3 tests failed" 50 true
    (by decide) ⟨by decide, by decide⟩ (by decide) (by decide)

/-- **C9.** For a task failing with an externally classified message while
retries remain (`_should_retry` true), once the elapsed time since the
recorded first external failure reaches or exceeds the positive configured
external-failure timeout, the handler stops retrying: the task is marked
Failed and the message is annotated with the external failure timeout and
the elapsed seconds. -/
theorem external_timeout_marks_failed (st : RunnerState) (tid msg : String) (t0 now : Int)
    (hext : isExternalFailure msg = true)
    (hsr : shouldRetry st.cfg msg (st.retryCounts tid) = true)
    (htm : 0 < st.cfg.externalFailTimeout)
    (hsince : st.externalFailureSince tid = some t0)
    (helapsed : st.cfg.externalFailTimeout ≤ now - t0) :
    (handleFailure st tid msg now true).status = "failed" ∧
    (handleFailure st tid msg now true).st.sched.stateOf tid = TaskState.failed ∧
    (handleFailure st tid msg now true).errMsg =
      msg ++ " (external failure timeout after " ++ toString (now - t0) ++ "s)" := by
  refine ⟨?_, ?_, ?_⟩ <;>
    simp [handleFailure, hsr, hext, htm, hsince, helapsed, stateOf_failTask]

/-- Witness for `external_timeout_marks_failed`: first external failure at
time 0, the next failure at time 300 with the default 300s budget. -/
theorem external_timeout_marks_failed_witness :
    (handleFailure runnerDemoTimed "T" "rate limit exceeded" 300 true).status = "failed" ∧
    (handleFailure runnerDemoTimed "T" "rate limit exceeded" 300 true).st.sched.stateOf "T"
      = TaskState.failed ∧
    (handleFailure runnerDemoTimed "T" "rate limit exceeded" 300 true).errMsg =
      "rate limit exceeded" ++ " (external failure timeout after " ++
        toString ((300 : Int) - 0) ++ "s)" :=
  external_timeout_marks_failed runnerDemoTimed "T" "rate limit exceeded" 0 300
    (by decide) (by decide) (by decide) (by decide) (by decide)

theorem rotate_once {ps : List String} {cur next : String} (st : RunnerState) (tid : String)
    (hps : st.providers = ps) (hcur : st.taskProviders tid = some cur) (hne : cur ≠ "")
    (hlen : 1 < ps.length)
    (hsearch : rotateSearch ps cur (listIndex ps cur) 1 ps.length = some next) :
    (rotateProviderForTask st tid).1 = some (cur, next) ∧
    (rotateProviderForTask st tid).2.taskProviders tid = some next ∧
    (rotateProviderForTask st tid).2.providers = ps := by
  have hlen' : ¬ ps.length ≤ 1 := by omega
  refine ⟨?_, ?_, ?_⟩ <;>
    simp [rotateProviderForTask, hps, hlen', hcur, hne, hsearch, fupd]

/-- **C7.** For a task on configured providers [p1, p2, p3] (pairwise
distinct, non-empty) currently assigned p1, three successive rotations
reassign p1 to p2, p2 to p3 and p3 back to p1: rotation searches forward
from the current provider of the task with wrap-around, independently of
the global round-robin cursor (the cursor of `st` is arbitrary and never
read). -/
theorem provider_rotation_cycle (p1 p2 p3 tid : String) (st : RunnerState)
    (hps : st.providers = [p1, p2, p3])
    (hcur : st.taskProviders tid = some p1)
    (h1 : p1 ≠ "") (h2 : p2 ≠ "") (h3 : p3 ≠ "")
    (h12 : p1 ≠ p2) (h13 : p1 ≠ p3) (h23 : p2 ≠ p3) :
    (rotateProviderForTask st tid).1 = some (p1, p2) ∧
    (rotateProviderForTask st tid).2.taskProviders tid = some p2 ∧
    (rotateProviderForTask (rotateProviderForTask st tid).2 tid).1 = some (p2, p3) ∧
    (rotateProviderForTask (rotateProviderForTask st tid).2 tid).2.taskProviders tid
      = some p3 ∧
    (rotateProviderForTask
        (rotateProviderForTask (rotateProviderForTask st tid).2 tid).2 tid).1
      = some (p3, p1) ∧
    (rotateProviderForTask
        (rotateProviderForTask (rotateProviderForTask st tid).2 tid).2 tid).2.taskProviders
        tid = some p1 := by
  have e1 : (((0 : Int) + 1) % 3).toNat = 1 := by decide
  have e2 : (((1 : Int) + 1) % 3).toNat = 2 := by decide
  have e3 : (((2 : Int) + 1) % 3).toNat = 0 := by decide
  have l1 : listIndex [p1, p2, p3] p1 = 0 := by simp [listIndex]
  have l2 : listIndex [p1, p2, p3] p2 = 1 := by
    simp +decide [listIndex, h12, Ne.symm h12]
  have l3 : listIndex [p1, p2, p3] p3 = 2 := by
    simp +decide [listIndex, h13, h23]
  have hs1 : rotateSearch [p1, p2, p3] p1 (listIndex [p1, p2, p3] p1) 1
      ([p1, p2, p3] : List String).length = some p2 := by
    rw [l1]
    simp [rotateSearch, e1, List.getD, Ne.symm h12]
  have hs2 : rotateSearch [p1, p2, p3] p2 (listIndex [p1, p2, p3] p2) 1
      ([p1, p2, p3] : List String).length = some p3 := by
    rw [l2]
    simp [rotateSearch, e2, List.getD, Ne.symm h23]
  have hs3 : rotateSearch [p1, p2, p3] p3 (listIndex [p1, p2, p3] p3) 1
      ([p1, p2, p3] : List String).length = some p1 := by
    rw [l3]
    simp [rotateSearch, e3, List.getD, h13]
  obtain ⟨r1a, r1b, r1c⟩ := rotate_once st tid hps hcur h1 (by simp) hs1
  obtain ⟨r2a, r2b, r2c⟩ := rotate_once (rotateProviderForTask st tid).2 tid r1c r1b h2
    (by simp) hs2
  obtain ⟨r3a, r3b, r3c⟩ := rotate_once
    (rotateProviderForTask (rotateProviderForTask st tid).2 tid).2 tid r2c r2b h3
    (by simp) hs3
  exact ⟨r1a, r1b, r2a, r2b, r3a, r3b⟩

/-- Witness for `provider_rotation_cycle` on `runnerDemo` (three providers,
task T assigned p1). -/
theorem provider_rotation_cycle_witness :
    (rotateProviderForTask runnerDemo "T").1 = some ("p1", "p2") ∧
    (rotateProviderForTask runnerDemo "T").2.taskProviders "T" = some "p2" ∧
    (rotateProviderForTask (rotateProviderForTask runnerDemo "T").2 "T").1
      = some ("p2", "p3") ∧
    (rotateProviderForTask (rotateProviderForTask runnerDemo "T").2 "T").2.taskProviders "T"
      = some "p3" ∧
    (rotateProviderForTask
        (rotateProviderForTask (rotateProviderForTask runnerDemo "T").2 "T").2 "T").1
      = some ("p3", "p1") ∧
    (rotateProviderForTask
        (rotateProviderForTask (rotateProviderForTask runnerDemo "T").2 "T").2
        "T").2.taskProviders "T" = some "p1" :=
  provider_rotation_cycle "p1" "p2" "p3" "T" runnerDemo rfl (by decide)
    (by decide) (by decide) (by decide) (by decide) (by decide) (by decide)

/-- **C8.** A merge-failure retry — routed from success handling into
`_handle_failure` with `allow_provider_switch=False` — never touches the
task-to-provider map, whatever the state, task, message or time. -/
theorem merge_failure_retry_keeps_provider (st : RunnerState) (tid mergeError : String)
    (now : Int) :
    (handleSuccessMergeFailed st tid mergeError now).st.taskProviders = st.taskProviders := by
  unfold handleSuccessMergeFailed handleFailure
  dsimp only
  split_ifs <;> first | rfl | simp_all

/-- **C6** (counterexample). A run that exits 0 with one commit whose only
changed file is `mytasks.yaml`: its exact basename is neither reserved
filename, so the claim counts it meaningful and predicts success; the code
excludes it by substring match and routes the slot to failure with the
synthesized no-meaningful-changes message. -/
theorem meaningful_basename_counterexample :
    claimMeaningfulByBasename ["mytasks.yaml"] = true ∧
    meaningfulChanges ["mytasks.yaml"] = false ∧
    handleFinishedRoute 0 1 ["mytasks.yaml"] "" =
      Route.failure "No meaningful changes (only tasks.yaml/progress.txt)" := by decide

/-- **C6** (amended). A finished process is routed to success iff its exit
code is 0, the new-commit count is positive, and some changed entry is
non-empty and contains neither `tasks.yaml` nor `progress.txt` as a
substring of its path (substring exclusion, not exact basename); when no
explicit error message was found in the logs, the failure message is
synthesized from the exit code / missing commits / missing meaningful
changes, in that order. -/
theorem finished_route_spec (rc : Int) (commits : Nat) (files : List String)
    (logErr : String) :
    (handleFinishedRoute rc commits files logErr = Route.success ↔
      (rc = 0 ∧ 0 < commits ∧ meaningfulChanges files = true)) ∧
    (logErr = "" → rc ≠ 0 →
      handleFinishedRoute rc commits files logErr =
        Route.failure ("exit code " ++ toString rc)) ∧
    (logErr = "" → rc = 0 → commits = 0 →
      handleFinishedRoute rc commits files logErr =
        Route.failure "Agent exited without creating any commits") ∧
    (logErr = "" → rc = 0 → 0 < commits → meaningfulChanges files = false →
      handleFinishedRoute rc commits files logErr =
        Route.failure "No meaningful changes (only tasks.yaml/progress.txt)") := by
  refine ⟨?_, ?_, ?_, ?_⟩
  · unfold handleFinishedRoute
    by_cases h : rc = 0 ∧ 0 < commits ∧ meaningfulChanges files = true
    · simp [h]
    · simp [h]
  · rintro rfl hrc
    unfold handleFinishedRoute
    rw [if_neg (by tauto)]
    simp [hrc]
  · rintro rfl rfl hc
    unfold handleFinishedRoute
    rw [if_neg (by simp [hc])]
    simp [hc]
  · rintro rfl rfl hc hm
    unfold handleFinishedRoute
    rw [if_neg (by simp [hm])]
    have hcz : commits ≠ 0 := Nat.pos_iff_ne_zero.mp hc
    simp [hm, hcz]

/-- Witness for `finished_route_spec`: exit 0 with no commits synthesizes
the no-commits message. -/
theorem finished_route_spec_witness :
    handleFinishedRoute 0 0 [] "" =
      Route.failure "Agent exited without creating any commits" :=
  (finished_route_spec 0 0 [] "").2.2.1 rfl rfl rfl

end Gralph
